import Mathlib

/-!
Verification development for the `refine-backlog-cli` repository: a shallow
embedding in Lean 4 of the CLI's pure core (context auto-detection, argument
parsing, input collection, request-body construction, HTTP response mapping,
markdown formatting, and the `enforce` subcommand's scoring/threshold logic),
together with theorems about its behaviour.

Strings are modelled through their character lists; the JavaScript operations
`trim`, `slice(0, n)`, `split('\n')`, `startsWith` and `Array.join` are
embedded as character-list functions below.
-/

set_option maxRecDepth 100000

namespace RefineCli

/-- Character-level embedding of JavaScript `String.prototype.trim`:
drop whitespace characters from both ends of the character list. -/
def trimChars (l : List Char) : List Char :=
  (((l.dropWhile Char.isWhitespace).reverse.dropWhile Char.isWhitespace)).reverse

/-- JavaScript `s.trim()` on a Lean string. -/
def jsTrim (s : String) : String := String.mk (trimChars s.data)

/-- JavaScript `s.slice(0, n)` (character-based in this embedding). -/
def jsSlice (s : String) (n : Nat) : String := String.mk (s.data.take n)

/-- JavaScript `Array.prototype.join(sep)`. -/
def joinSep (sep : String) : List String → String
  | [] => ""
  | [x] => x
  | x :: y :: rest => x ++ sep ++ joinSep sep (y :: rest)

/-- Boolean prefix test on character lists (JavaScript `startsWith`). -/
def listStarts : List Char → List Char → Bool
  | [], _ => true
  | _ :: _, [] => false
  | a :: as, b :: bs => a == b && listStarts as bs

/-- JavaScript `s.startsWith(p)`. -/
def strStarts (p s : String) : Bool := listStarts p.data s.data

/-- JavaScript `s.split('\n')` helper on character lists. -/
def splitNlAux : List Char → List Char → List (List Char)
  | [], acc => [acc]
  | c :: rest, acc =>
    if c = '\n' then acc :: splitNlAux rest [] else splitNlAux rest (acc ++ [c])

/-- JavaScript `s.split('\n')`. -/
def splitNl (s : String) : List String := (splitNlAux s.data []).map String.mk

/-- Sum of the lengths of a list of strings. -/
def sumLens (l : List String) : Nat := (l.map String.length).sum

/-! ## Context auto-detection (`detectProjectContext`, src/src/index.ts lines 35-101)

The file system is modelled as a map from candidate file names to their
state: absent (`existsSync` false), unreadable (`readFileSync` throws), or
present with a content string. -/

/-- State of one candidate context file on disk. -/
inductive FileSt where
  | absent : FileSt
  | unreadable : FileSt
  | present (content : String) : FileSt

/-- One entry of the `sources` table: a relative file name and its extractor. -/
structure CtxSource where
  file : String
  extractor : String → String

/-- The accumulator of the detection loop: `collected`, `usedSources`,
`totalChars` from the source. -/
structure DetectState where
  collected : List String
  usedSources : List String
  totalChars : Nat
deriving DecidableEq

/-- The global character budget `MAX_CHARS` of `detectProjectContext`. -/
def MAX_CHARS : Nat := 700

/-- The initial accumulator: empty lists, zero characters. -/
def initDetect : DetectState := ⟨[], [], 0⟩

/-- The body of the `for (const { file, extractor } of sources)` loop for one
source (index.ts lines 79-93): skip absent files, swallow read errors, skip
contents that are empty after trimming, skip extractions that are empty after
trimming, otherwise truncate the extraction to the remaining budget and
accumulate it. -/
def visitSource (fsys : String → FileSt) (st : DetectState) (s : CtxSource) :
    DetectState :=
  match fsys s.file with
  | .absent => st
  | .unreadable => st
  | .present raw =>
    let content := jsTrim raw
    if content = "" then st
    else
      let extracted := jsTrim (s.extractor content)
      if extracted = "" then st
      else
        let remaining := MAX_CHARS - st.totalChars
        let chunk := jsSlice extracted remaining
        { collected := st.collected ++ [chunk]
          usedSources := st.usedSources ++ [s.file]
          totalChars := st.totalChars + chunk.length }

/-- The detection loop over the ordered source table, with the
`if (totalChars >= MAX_CHARS) break` guard (index.ts line 78). -/
def detectLoop (fsys : String → FileSt) : DetectState → List CtxSource → DetectState
  | st, [] => st
  | st, s :: rest =>
    if MAX_CHARS ≤ st.totalChars then st
    else detectLoop fsys (visitSource fsys st s) rest

/-- The full detection run starting from the empty accumulator. -/
def detectRun (fsys : String → FileSt) (srcs : List CtxSource) : DetectState :=
  detectLoop fsys initDetect srcs

/-- `detectProjectContext`: run the loop; return `undefined` when nothing was
collected, else the chunks joined with `" | "` (index.ts lines 96-100). -/
def detectProjectContext (fsys : String → FileSt) (srcs : List CtxSource) :
    Option String :=
  let st := detectRun fsys srcs
  if st.collected = [] then none else some (joinSep " | " st.collected)

/-- The plain-text extractor `(c) => c.slice(0, 300)` shared by most entries of
the source table. -/
def slice300 (c : String) : String := jsSlice c 300

/-- The fixed priority-ordered candidate file table of `detectProjectContext`
(index.ts lines 39-71).  The `package.json` extractor calls the JavaScript
JSON parser, an external library routine; it is taken as the parameter
`pkgExtractor` so that every theorem below holds for whatever summarisation
that extractor performs. -/
def ctxSources (pkgExtractor : String → String) : List CtxSource :=
  [⟨"AGENTS.md", slice300⟩,
   ⟨"CLAUDE.md", slice300⟩,
   ⟨"CODEX.md", slice300⟩,
   ⟨"GEMINI.md", slice300⟩,
   ⟨".github/copilot-instructions.md", slice300⟩,
   ⟨".windsurfrules", slice300⟩,
   ⟨"llms.txt", slice300⟩,
   ⟨"README.md", slice300⟩,
   ⟨"package.json", pkgExtractor⟩,
   ⟨"prisma/schema.prisma", slice300⟩]

/-! ### Lemmas about the detection loop -/

lemma jsSlice_length_le (s : String) (n : Nat) : (jsSlice s n).length ≤ n := by
  show (s.data.take n).length ≤ n
  rw [List.length_take]; exact Nat.min_le_left _ _

lemma sumLens_append (l1 l2 : List String) :
    sumLens (l1 ++ l2) = sumLens l1 + sumLens l2 := by
  simp [sumLens]

lemma visitSource_shape (fsys : String → FileSt) (st : DetectState) (s : CtxSource) :
    visitSource fsys st s = st ∨
    ∃ chunk, visitSource fsys st s =
        { collected := st.collected ++ [chunk]
          usedSources := st.usedSources ++ [s.file]
          totalChars := st.totalChars + chunk.length } ∧
      chunk.length ≤ MAX_CHARS - st.totalChars := by
  unfold visitSource
  cases fsys s.file with
  | absent => exact Or.inl rfl
  | unreadable => exact Or.inl rfl
  | present raw =>
    dsimp only
    split
    · exact Or.inl rfl
    · split
      · exact Or.inl rfl
      · exact Or.inr ⟨_, rfl, jsSlice_length_le _ _⟩

lemma detectLoop_of_ge (fsys : String → FileSt) (st : DetectState)
    (l : List CtxSource) (h : MAX_CHARS ≤ st.totalChars) :
    detectLoop fsys st l = st := by
  cases l with
  | nil => rfl
  | cons s rest => simp [detectLoop, h]

lemma detectLoop_total_le (fsys : String → FileSt) (l : List CtxSource) :
    ∀ st : DetectState, st.totalChars ≤ MAX_CHARS →
      (detectLoop fsys st l).totalChars ≤ MAX_CHARS := by
  induction l with
  | nil => intro st h; exact h
  | cons s rest ih =>
    intro st h
    rw [detectLoop]
    split
    · exact h
    · rename_i hnot
      apply ih
      rcases visitSource_shape fsys st s with heq | ⟨chunk, heq, hle⟩
      · rw [heq]; exact h
      · rw [heq]; dsimp only; omega

lemma detectLoop_sum (fsys : String → FileSt) (l : List CtxSource) :
    ∀ st : DetectState, sumLens st.collected = st.totalChars →
      sumLens (detectLoop fsys st l).collected = (detectLoop fsys st l).totalChars := by
  induction l with
  | nil => intro st h; exact h
  | cons s rest ih =>
    intro st h
    rw [detectLoop]
    split
    · exact h
    · apply ih
      rcases visitSource_shape fsys st s with heq | ⟨chunk, heq, _⟩
      · rw [heq]; exact h
      · rw [heq]; dsimp only; rw [sumLens_append, h]; simp [sumLens]

lemma detectLoop_lens (fsys : String → FileSt) (l : List CtxSource) :
    ∀ st : DetectState, st.collected.length = st.usedSources.length →
      (detectLoop fsys st l).collected.length =
        (detectLoop fsys st l).usedSources.length := by
  induction l with
  | nil => intro st h; exact h
  | cons s rest ih =>
    intro st h
    rw [detectLoop]
    split
    · exact h
    · apply ih
      rcases visitSource_shape fsys st s with heq | ⟨chunk, heq, _⟩
      · rw [heq]; exact h
      · rw [heq]; simp [h]

lemma detectLoop_used (fsys : String → FileSt) (l : List CtxSource) :
    ∀ st : DetectState, ∃ extra,
      (detectLoop fsys st l).usedSources = st.usedSources ++ extra ∧
      extra.Sublist (l.map CtxSource.file) := by
  induction l with
  | nil => intro st; exact ⟨[], by simp [detectLoop], List.nil_sublist _⟩
  | cons s rest ih =>
    intro st
    rw [detectLoop]
    split
    · exact ⟨[], by simp, List.nil_sublist _⟩
    · rcases ih (visitSource fsys st s) with ⟨extra, he, hs⟩
      rcases visitSource_shape fsys st s with heq | ⟨chunk, heq, _⟩
      · refine ⟨extra, ?_, by simpa using List.Sublist.cons s.file hs⟩
        rw [he, heq]
      · refine ⟨s.file :: extra, ?_, by simpa using List.Sublist.cons₂ s.file hs⟩
        rw [he, heq]; simp

lemma joinSep_length (sep : String) : ∀ l : List String, l ≠ [] →
    (joinSep sep l).length = sumLens l + sep.length * (l.length - 1)
  | [], h => absurd rfl h
  | [x], _ => by simp [joinSep, sumLens]
  | x :: y :: rest, _ => by
    rw [joinSep, String.length_append, String.length_append,
        joinSep_length sep (y :: rest) (by simp)]
    simp only [sumLens, List.map_cons, List.sum_cons, List.length_cons,
      Nat.add_sub_cancel]
    ring

lemma detectLoop_append (fsys : String → FileSt) (l1 l2 : List CtxSource) :
    ∀ st : DetectState,
      detectLoop fsys st (l1 ++ l2) = detectLoop fsys (detectLoop fsys st l1) l2 := by
  induction l1 with
  | nil => intro st; rfl
  | cons s rest ih =>
    intro st
    rw [List.cons_append]
    by_cases hc : MAX_CHARS ≤ st.totalChars
    · rw [detectLoop, if_pos hc, detectLoop, if_pos hc, detectLoop_of_ge fsys st l2 hc]
    · rw [detectLoop, if_neg hc, detectLoop, if_neg hc, ih]

/-- C1 (amended): for every file system and every ordered candidate source
table, the running total of accepted chunk characters never exceeds the
700-character budget `MAX_CHARS`, the list of used sources is a subsequence of
the table's file names in priority order (absent, empty and unreadable files
skipped), every accepted chunk corresponds to exactly one used source, and the
combined string, when one is produced, has length equal to the chunk total
plus 3 characters per `" | "` separator — hence at most
`700 + 3 * (number of chunks - 1)`.  The separators are not charged against
the budget, so the combined string itself can exceed 700 characters (see the
counterexample). -/
theorem detect_context_budget_and_order (fsys : String → FileSt)
    (srcs : List CtxSource) :
    (detectRun fsys srcs).totalChars ≤ MAX_CHARS
    ∧ sumLens (detectRun fsys srcs).collected = (detectRun fsys srcs).totalChars
    ∧ (detectRun fsys srcs).usedSources.Sublist (srcs.map CtxSource.file)
    ∧ (detectRun fsys srcs).collected.length = (detectRun fsys srcs).usedSources.length
    ∧ ∀ s, detectProjectContext fsys srcs = some s →
        s.length = sumLens (detectRun fsys srcs).collected
            + 3 * ((detectRun fsys srcs).collected.length - 1)
        ∧ s.length ≤ MAX_CHARS + 3 * ((detectRun fsys srcs).collected.length - 1) := by
  have htot : (detectRun fsys srcs).totalChars ≤ MAX_CHARS :=
    detectLoop_total_le fsys srcs initDetect (by simp [initDetect])
  have hsum : sumLens (detectRun fsys srcs).collected = (detectRun fsys srcs).totalChars :=
    detectLoop_sum fsys srcs initDetect rfl
  refine ⟨htot, hsum, ?_, detectLoop_lens fsys srcs initDetect rfl, ?_⟩
  · rcases detectLoop_used fsys srcs initDetect with ⟨extra, he, hs⟩
    rw [detectRun] at *
    rw [he]
    simpa [initDetect] using hs
  · intro s hsome
    rw [detectProjectContext] at hsome
    split at hsome
    · exact absurd hsome (by simp)
    · rename_i hne
      have hs : s = joinSep " | " (detectRun fsys srcs).collected :=
        (Option.some.injEq _ _ ▸ hsome).symm
      have hlen := joinSep_length " | " (detectRun fsys srcs).collected hne
      have hsep : (" | " : String).length = 3 := rfl
      rw [hs, hlen, hsep, hsum]
      exact ⟨rfl, by omega⟩

/-- File system for the C1 witness: only `AGENTS.md` exists, holding
`"hello"`. -/
def c1wFs : String → FileSt := fun f =>
  if f = "AGENTS.md" then .present "hello" else .absent

/-- Witness for C1's theorem: on a file system with a single 5-character
`AGENTS.md`, the detected context is exactly `"hello"` and the length
equation holds. -/
theorem detect_context_budget_and_order_witness :
    "hello".length = sumLens (detectRun c1wFs (ctxSources id)).collected
        + 3 * ((detectRun c1wFs (ctxSources id)).collected.length - 1)
    ∧ "hello".length ≤ MAX_CHARS
        + 3 * ((detectRun c1wFs (ctxSources id)).collected.length - 1) :=
  (detect_context_budget_and_order c1wFs (ctxSources id)).2.2.2.2 "hello" (by decide)

/-- File system for the C1 counterexample: `AGENTS.md`, `CLAUDE.md` and
`CODEX.md` each hold 300 non-whitespace characters. -/
def c1xFs : String → FileSt := fun f =>
  if f = "AGENTS.md" ∨ f = "CLAUDE.md" ∨ f = "CODEX.md" then
    .present (String.mk (List.replicate 300 'a'))
  else .absent

/-- Counterexample to C1 as stated: with three 300-character candidate files
the loop accepts chunks of 300, 300 and 100 characters (300 + 300 + 100 = 700),
but the returned combined string joins them with two 3-character `" | "`
separators, so its length is 706 — strictly more than 700. -/
theorem detect_context_combined_exceeds_700 :
    (detectProjectContext c1xFs (ctxSources (fun _ => ""))).map String.length
        = some 706
    ∧ 700 < ((detectProjectContext c1xFs (ctxSources (fun _ => ""))).getD "").length :=
  ⟨by decide, by decide⟩

/-- C7: if the running character total has already reached the 700-character
budget after visiting a prefix of the candidate list, the remaining candidate
files contribute nothing: the final state, its used-source list and its chunk
list are exactly those of the prefix run. -/
theorem detect_budget_exhausted_contributes_nothing (fsys : String → FileSt)
    (pre rest : List CtxSource)
    (h : MAX_CHARS ≤ (detectRun fsys pre).totalChars) :
    detectRun fsys (pre ++ rest) = detectRun fsys pre
    ∧ (detectRun fsys (pre ++ rest)).usedSources = (detectRun fsys pre).usedSources
    ∧ (detectRun fsys (pre ++ rest)).collected = (detectRun fsys pre).collected := by
  have he : detectRun fsys (pre ++ rest) = detectRun fsys pre := by
    rw [detectRun, detectLoop_append fsys pre rest initDetect]
    exact detectLoop_of_ge fsys _ rest h
  exact ⟨he, by rw [he], by rw [he]⟩

/-- File system for the C7 witness: four 300-character candidate files. -/
def c7Fs : String → FileSt := fun f =>
  if f = "AGENTS.md" ∨ f = "CLAUDE.md" ∨ f = "CODEX.md" ∨ f = "GEMINI.md" then
    .present (String.mk (List.replicate 300 'b'))
  else .absent

/-- The prefix of the candidate table whose run exhausts the budget
(300 + 300 + 100 = 700 characters). -/
def c7Pre : List CtxSource :=
  [⟨"AGENTS.md", slice300⟩, ⟨"CLAUDE.md", slice300⟩, ⟨"CODEX.md", slice300⟩]

/-- A later candidate file that is present and non-empty but must be skipped. -/
def c7Rest : List CtxSource := [⟨"GEMINI.md", slice300⟩]

/-- Witness for C7's theorem: after the first three files exhaust the budget,
visiting the present, non-empty `GEMINI.md` changes nothing. -/
theorem detect_budget_exhausted_witness :
    detectRun c7Fs (c7Pre ++ c7Rest) = detectRun c7Fs c7Pre
    ∧ (detectRun c7Fs (c7Pre ++ c7Rest)).usedSources = (detectRun c7Fs c7Pre).usedSources
    ∧ (detectRun c7Fs (c7Pre ++ c7Rest)).collected = (detectRun c7Fs c7Pre).collected :=
  detect_budget_exhausted_contributes_nothing c7Fs c7Pre c7Rest (by decide)

/-! ## Argument parsing (`main`'s flag loop, src/src/index.ts lines 249-272) -/

/-- The mutable locals of `main` that the flag loop fills in
(index.ts lines 249-257), at their initial values in `initParse`. -/
structure ParseResult where
  items : List String
  format : String
  context : Option String
  licenseKey : Option String
  useUserStories : Bool
  useGherkin : Bool
  filePath : Option String
  noAutoContext : Bool
  contextExplicitlyProvided : Bool
deriving DecidableEq

/-- Initial parser state: no items, `markdown` format, everything unset. -/
def initParse : ParseResult :=
  ⟨[], "markdown", none, none, false, false, none, false, false⟩

/-- The `for (let i = 0; i < args.length; i++)` flag loop of `main`
(index.ts lines 259-272).  A value-taking flag consumes `args[++i]`
unconditionally; a missing `args[++i]` is `undefined` (here `none`, and
`'markdown'` for `--format` through `|| 'markdown'`); an argument starting
with `-` that matches no flag falls through every branch and is dropped. -/
def parseArgsLoop : ParseResult → List String → ParseResult
  | acc, [] => acc
  | acc, arg :: rest =>
    if arg = "--format" then
      match rest with
      | v :: rest2 =>
        parseArgsLoop { acc with format := if v = "" then "markdown" else v } rest2
      | [] => parseArgsLoop { acc with format := "markdown" } []
    else if arg = "--context" ∨ arg = "-c" then
      match rest with
      | v :: rest2 =>
        parseArgsLoop
          { acc with context := some v, contextExplicitlyProvided := true } rest2
      | [] =>
        parseArgsLoop
          { acc with context := none, contextExplicitlyProvided := true } []
    else if arg = "--no-auto-context" then
      parseArgsLoop { acc with noAutoContext := true } rest
    else if arg = "--key" ∨ arg = "-k" then
      match rest with
      | v :: rest2 => parseArgsLoop { acc with licenseKey := some v } rest2
      | [] => parseArgsLoop { acc with licenseKey := none } []
    else if arg = "--file" ∨ arg = "-f" then
      match rest with
      | v :: rest2 => parseArgsLoop { acc with filePath := some v } rest2
      | [] => parseArgsLoop { acc with filePath := none } []
    else if arg = "--user-stories" then
      parseArgsLoop { acc with useUserStories := true } rest
    else if arg = "--gherkin" then
      parseArgsLoop { acc with useGherkin := true } rest
    else if ¬ (strStarts "-" arg = true) then
      parseArgsLoop { acc with items := acc.items ++ [arg] } rest
    else
      parseArgsLoop acc rest

/-- The flag strings the loop recognises. -/
def recognizedFlags : List String :=
  ["--format", "--context", "-c", "--no-auto-context", "--key", "-k",
   "--file", "-f", "--user-stories", "--gherkin"]

/-- The post-parse context resolution of `main` (index.ts lines 294-300):
auto-detection is consulted only when neither `--context` nor
`--no-auto-context` appeared, and only a non-`undefined` detection result
replaces the parsed context. -/
def resolveContext (p : ParseResult) (detected : Option String) : Option String :=
  if p.contextExplicitlyProvided = false ∧ p.noAutoContext = false then
    match detected with
    | some d => some d
    | none => p.context
  else p.context

/-! ## Input collection (`main` lines 274-286 and `readStdin` lines 225-234) -/

/-- File reading in `main`:
`fs.readFileSync(filePath,'utf8').split('\n').map(l => l.trim()).filter(Boolean)`
(index.ts line 280). -/
def fileItems (content : String) : List String :=
  ((splitNl content).map jsTrim).filter (fun l => l ≠ "")

/-- `readStdin` (index.ts lines 225-234): each line is trimmed and pushed only
when the trimmed line is non-empty.  The input is the list of lines the
readline interface produces. -/
def stdinItems (lines : List String) : List String :=
  (lines.map jsTrim).filter (fun l => l ≠ "")

/-- The merged item list of `main`: positional items from the flag loop, then
the lines of the `--file` file when one was named, then the stdin lines
(index.ts lines 274-286). -/
def collectItems (positional : List String) (fileContent : Option String)
    (stdinLines : List String) : List String :=
  positional ++
    (match fileContent with
     | some c => fileItems c
     | none => []) ++
    stdinItems stdinLines

/-! ## Request construction (`callApi`, src/src/index.ts lines 142-164) -/

/-- The version constant `VERSION` of the CLI. -/
def VERSION : String := "1.0.2"

/-- The options object `callApi` receives. -/
structure CallOpts where
  context : Option String
  useUserStories : Bool
  useGherkin : Bool
  licenseKey : Option String
deriving DecidableEq

/-- The JSON body of the refine request, with `none` meaning the key is
omitted from the serialized object altogether. -/
structure RefineBody where
  items : List String
  context : Option String
  useUserStories : Option Bool
  useGherkin : Option Bool
deriving DecidableEq

/-- The body construction of `callApi` (index.ts lines 149-154): conditional
spreads include `context` only when it is truthy (present and non-empty) and
include `useUserStories` / `useGherkin` with value `true` only when the flag
is truthy. -/
def buildRefineBody (items : List String) (opts : CallOpts) : RefineBody :=
  { items := items
    context :=
      match opts.context with
      | some c => if c = "" then none else some c
      | none => none
    useUserStories := if opts.useUserStories then some true else none
    useGherkin := if opts.useGherkin then some true else none }

/-- The header construction of `callApi` (index.ts lines 156-164): three fixed
headers, plus `x-license-key` exactly when `opts.licenseKey` is truthy. -/
def buildHeaders (bodyLength : Nat) (opts : CallOpts) : List (String × String) :=
  [("Content-Type", "application/json"),
   ("Content-Length", toString bodyLength),
   ("User-Agent", "refine-backlog-cli/" ++ VERSION)] ++
    (match opts.licenseKey with
     | some k => if k = "" then [] else [("x-license-key", k)]
     | none => [])

/-! ### Trimming lemmas -/

lemma trimChars_eq_rdropWhile (l : List Char) :
    trimChars l = List.rdropWhile Char.isWhitespace (l.dropWhile Char.isWhitespace) := rfl

lemma trimChars_idem (l : List Char) : trimChars (trimChars l) = trimChars l := by
  rw [trimChars_eq_rdropWhile, trimChars_eq_rdropWhile]
  have h1 : (List.rdropWhile Char.isWhitespace
      (l.dropWhile Char.isWhitespace)).dropWhile Char.isWhitespace
      = List.rdropWhile Char.isWhitespace (l.dropWhile Char.isWhitespace) := by
    rw [List.dropWhile_eq_self_iff]
    intro hl hp
    have hpre : List.rdropWhile Char.isWhitespace (l.dropWhile Char.isWhitespace)
        <+: l.dropWhile Char.isWhitespace := List.rdropWhile_prefix _ _
    have hlenA : 0 < (l.dropWhile Char.isWhitespace).length :=
      lt_of_lt_of_le hl hpre.length_le
    have hget := List.IsPrefix.getElem hpre hl
    apply List.dropWhile_get_zero_not Char.isWhitespace l hlenA
    simpa [List.get_eq_getElem, hget] using hp
  rw [h1, List.rdropWhile_idempotent]

lemma jsTrim_idem (s : String) : jsTrim (jsTrim s) = jsTrim s := by
  show String.mk (trimChars (trimChars s.data)) = String.mk (trimChars s.data)
  rw [trimChars_idem]

/-! ## Claim theorems for input collection, request construction and parsing -/

/-- C4: the input collector merges positional arguments first, then the lines
of the `--file` file, then the stdin lines; every merged file or stdin line is
trimmed (trimming it again changes nothing) and non-empty; and for arguments
`["A"]`, file content `"B\nC"`, and piped input `"D"`, the merged list is
exactly `["A", "B", "C", "D"]`. -/
theorem collect_items_merge_order (positional : List String) (c : String)
    (stdinLines : List String) :
    collectItems positional (some c) stdinLines
        = positional ++ fileItems c ++ stdinItems stdinLines
    ∧ (∀ t ∈ fileItems c, jsTrim t = t ∧ t ≠ "")
    ∧ (∀ t ∈ stdinItems stdinLines, jsTrim t = t ∧ t ≠ "")
    ∧ collectItems ["A"] (some "B\nC") ["D"] = ["A", "B", "C", "D"] := by
  refine ⟨rfl, ?_, ?_, by decide⟩
  · intro t ht
    rw [fileItems, List.mem_filter] at ht
    rcases ht with ⟨hmem, hne⟩
    rcases List.mem_map.mp hmem with ⟨x, _, hx⟩
    exact ⟨hx ▸ jsTrim_idem x, by simpa using hne⟩
  · intro t ht
    rw [stdinItems, List.mem_filter] at ht
    rcases ht with ⟨hmem, hne⟩
    rcases List.mem_map.mp hmem with ⟨x, _, hx⟩
    exact ⟨hx ▸ jsTrim_idem x, by simpa using hne⟩

/-- Witness for C4's theorem at the claim's concrete input: the file line
`"B"` is trimmed and non-empty. -/
theorem collect_items_merge_order_witness : jsTrim "B" = "B" ∧ "B" ≠ "" :=
  (collect_items_merge_order ["A"] "B\nC" ["D"]).2.1 "B" (by decide)

/-- C8: the refine request body always carries the items array; a falsy
context (absent or empty) is omitted while a truthy one is kept verbatim; the
`useUserStories` / `useGherkin` keys are omitted when the flag is false and
carry the value `true` when it is true; and the `x-license-key` header is
attached exactly when a truthy license key was supplied. -/
theorem refine_body_omits_falsy (items : List String) (opts : CallOpts)
    (bodyLength : Nat) :
    (buildRefineBody items opts).items = items
    ∧ (opts.context = none ∨ opts.context = some "" →
        (buildRefineBody items opts).context = none)
    ∧ (∀ c, opts.context = some c → c ≠ "" →
        (buildRefineBody items opts).context = some c)
    ∧ (opts.useUserStories = false →
        (buildRefineBody items opts).useUserStories = none)
    ∧ (opts.useUserStories = true →
        (buildRefineBody items opts).useUserStories = some true)
    ∧ (opts.useGherkin = false → (buildRefineBody items opts).useGherkin = none)
    ∧ (opts.useGherkin = true → (buildRefineBody items opts).useGherkin = some true)
    ∧ (opts.licenseKey = none ∨ opts.licenseKey = some "" →
        (buildHeaders bodyLength opts).lookup "x-license-key" = none)
    ∧ (∀ k, opts.licenseKey = some k → k ≠ "" →
        (buildHeaders bodyLength opts).lookup "x-license-key" = some k) := by
  refine ⟨rfl, ?_, ?_, ?_, ?_, ?_, ?_, ?_, ?_⟩
  · rintro (h | h) <;> simp [buildRefineBody, h]
  · intro c hc hne; simp [buildRefineBody, hc, hne]
  · intro h; simp [buildRefineBody, h]
  · intro h; simp [buildRefineBody, h]
  · intro h; simp [buildRefineBody, h]
  · intro h; simp [buildRefineBody, h]
  · rintro (h | h) <;> simp [buildHeaders, h, List.lookup]
  · intro k hk hne; simp [buildHeaders, hk, hne, List.lookup]

/-- Witness for C8's theorem: with a non-empty key `"K"`, the header list
carries `x-license-key: K`. -/
theorem refine_body_omits_falsy_witness :
    (buildHeaders 5 ⟨none, false, false, some "K"⟩).lookup "x-license-key"
      = some "K" :=
  (refine_body_omits_falsy ["A"] ⟨none, false, false, some "K"⟩ 5).2.2.2.2.2.2.2.2
    "K" rfl (by decide)

/-- C9: once `contextExplicitlyProvided` is set, context resolution ignores
whatever auto-detection would have produced; passing `--context` with no
following value sets the marker while leaving the context `undefined`, so no
context field is sent in the request body; passing `--context ""` sets the
marker and an empty context, which the body construction also omits. -/
theorem context_flag_suppresses_autodetect (p : ParseResult)
    (detected : Option String) (items : List String) :
    (p.contextExplicitlyProvided = true → resolveContext p detected = p.context)
    ∧ (parseArgsLoop initParse ["--context"]).contextExplicitlyProvided = true
    ∧ (parseArgsLoop initParse ["--context"]).context = none
    ∧ resolveContext (parseArgsLoop initParse ["--context"]) detected = none
    ∧ (buildRefineBody items
        { context := resolveContext (parseArgsLoop initParse ["--context"]) detected
          useUserStories := false, useGherkin := false, licenseKey := none }).context
        = none
    ∧ (parseArgsLoop initParse ["--context", ""]).contextExplicitlyProvided = true
    ∧ resolveContext (parseArgsLoop initParse ["--context", ""]) detected = some ""
    ∧ (buildRefineBody items
        { context := resolveContext (parseArgsLoop initParse ["--context", ""]) detected
          useUserStories := false, useGherkin := false, licenseKey := none }).context
        = none := by
  have h0 : ∀ (q : ParseResult) (d : Option String),
      q.contextExplicitlyProvided = true → resolveContext q d = q.context := by
    intro q d hq
    unfold resolveContext
    rw [if_neg]
    simp [hq]
  refine ⟨h0 p detected, by decide, by decide, ?_, ?_, by decide, ?_, ?_⟩
  · rw [h0 _ _ (by decide)]; decide
  · rw [h0 _ _ (by decide)]; simp [buildRefineBody]; decide
  · rw [h0 _ _ (by decide)]; decide
  · rw [h0 _ _ (by decide)]; simp [buildRefineBody]; decide

/-- Witness for C9's theorem: with `--context` given (value missing) and a
detection result available, resolution still returns the parsed context. -/
theorem context_flag_suppresses_autodetect_witness :
    resolveContext (parseArgsLoop initParse ["--context"]) (some "detected")
      = (parseArgsLoop initParse ["--context"]).context :=
  (context_flag_suppresses_autodetect (parseArgsLoop initParse ["--context"])
    (some "detected") []).1 (by decide)

/-- C10: an argument that starts with `-` but matches no recognised flag is
silently dropped by the flag loop (the parse continues on the remaining
arguments unchanged, with nothing added to the item list and no error raised),
and every value-taking flag consumes the immediately following argument
unconditionally — the equations below hold for every value `v`, including one
that itself starts with `-`. -/
theorem parse_loop_unknown_and_value_flags (acc : ParseResult) (arg : String)
    (v : String) (rest : List String) :
    (strStarts "-" arg = true → arg ∉ recognizedFlags →
      parseArgsLoop acc (arg :: rest) = parseArgsLoop acc rest)
    ∧ parseArgsLoop acc ("--format" :: v :: rest)
        = parseArgsLoop { acc with format := if v = "" then "markdown" else v } rest
    ∧ parseArgsLoop acc ("--context" :: v :: rest)
        = parseArgsLoop
            { acc with context := some v, contextExplicitlyProvided := true } rest
    ∧ parseArgsLoop acc ("-c" :: v :: rest)
        = parseArgsLoop
            { acc with context := some v, contextExplicitlyProvided := true } rest
    ∧ parseArgsLoop acc ("--key" :: v :: rest)
        = parseArgsLoop { acc with licenseKey := some v } rest
    ∧ parseArgsLoop acc ("-k" :: v :: rest)
        = parseArgsLoop { acc with licenseKey := some v } rest
    ∧ parseArgsLoop acc ("--file" :: v :: rest)
        = parseArgsLoop { acc with filePath := some v } rest
    ∧ parseArgsLoop acc ("-f" :: v :: rest)
        = parseArgsLoop { acc with filePath := some v } rest := by
  refine ⟨?_, ?_, ?_, ?_, ?_, ?_, ?_, ?_⟩
  · intro hdash hnotin
    simp only [recognizedFlags, List.mem_cons, List.not_mem_nil, or_false,
      not_or] at hnotin
    obtain ⟨h1, h2, h3, h4, h5, h6, h7, h8, h9, h10⟩ := hnotin
    rw [parseArgsLoop.eq_def]
    dsimp only
    simp [h1, h2, h3, h4, h5, h6, h7, h8, h9, h10, hdash]
  · simp [parseArgsLoop]
  · simp [parseArgsLoop]
  · simp [parseArgsLoop]
  · simp [parseArgsLoop]
  · simp [parseArgsLoop]
  · simp [parseArgsLoop]
  · simp [parseArgsLoop]

/-- Witness for C10's theorem: `--bogus` is dropped without touching the
state, and `--key` swallows a following `--gherkin` as its value. -/
theorem parse_loop_unknown_and_value_flags_witness :
    parseArgsLoop initParse ["--bogus"] = parseArgsLoop initParse []
    ∧ parseArgsLoop initParse ["--key", "--gherkin"]
        = parseArgsLoop { initParse with licenseKey := some "--gherkin" } [] :=
  ⟨(parse_loop_unknown_and_value_flags initParse "--bogus" "x" []).1
      (by decide) (by decide),
   (parse_loop_unknown_and_value_flags initParse "--key" "--gherkin" []).2.2.2.2.1⟩

/-! ## The refined-item data model and the markdown formatter
(src/src/index.ts lines 10-28 and 202-223) -/

/-- The `RefinedItem` interface (index.ts lines 10-19).  `userStory` is the
only optional field; `rationale` is a plain string whose JS-truthiness
(non-emptiness) is tested at render time. -/
structure RefinedItem where
  title : String
  problemStatement : String
  acceptanceCriteria : List String
  estimate : String
  priority : String
  rationale : String
  tags : List String
  userStory : Option String
deriving DecidableEq

/-- The `_meta` object of the API response (index.ts lines 23-27). -/
structure ApiMeta where
  tier : String
  itemsProcessed : Nat
  tokens : Option Nat
deriving DecidableEq

/-- The `ApiResponse` interface (index.ts lines 21-28); `meta` embeds the
optional `_meta` field. -/
structure ApiResponse where
  items : List RefinedItem
  meta : Option ApiMeta
deriving DecidableEq

/-- The per-item line array built by `formatMarkdown` (index.ts lines
204-221).  `if (item.userStory)` and `if (item.rationale)` are JS-truthiness
tests, false for an absent or empty string; `acceptanceCriteria?.length` and
`tags?.length` are truthy exactly for non-empty lists. -/
def itemLines (item : RefinedItem) : List String :=
  ["## " ++ item.title]
  ++ (match item.userStory with
      | some s => if s = "" then [] else ["\n> " ++ s]
      | none => [])
  ++ ["\n**Problem:** " ++ item.problemStatement]
  ++ ["\n**Estimate:** " ++ (item.estimate ++ (" | **Priority:** " ++ item.priority))]
  ++ (if item.rationale = "" then [] else ["**Rationale:** " ++ item.rationale])
  ++ (if item.acceptanceCriteria = [] then []
      else "\n**Acceptance Criteria:**"
        :: item.acceptanceCriteria.map (fun ac => "- " ++ ac))
  ++ (if item.tags = [] then [] else ["\n**Tags:** " ++ joinSep ", " item.tags])

/-- One item's rendering: `lines.join('\n')` (index.ts line 221). -/
def formatItem (item : RefinedItem) : String := joinSep "\n" (itemLines item)

/-- `formatMarkdown` (index.ts lines 202-223): render every item and join the
renderings with the horizontal-rule separator. -/
def formatMarkdown (items : List RefinedItem) : String :=
  joinSep "\n\n---\n\n" (items.map formatItem)

/-! ## HTTP response mapping (`callApi` response handler, index.ts
lines 175-193) -/

/-- The outcome of the `res.on('end', ...)` handler: the promise either
resolves with a parsed response or rejects with one error message. -/
inductive ApiOutcome where
  | resolved (r : ApiResponse) : ApiOutcome
  | rejected (msg : String) : ApiOutcome
deriving DecidableEq

/-- How the template literal renders `res.statusCode`: a missing status
prints as `undefined`. -/
def statusShow : Option Nat → String
  | none => "undefined"
  | some n => toString n

/-- The guard `!res.statusCode || res.statusCode >= 400` (index.ts line 184):
a missing status and the JS-falsy status 0 both satisfy `!res.statusCode`. -/
def genericErrorStatus : Option Nat → Bool
  | none => true
  | some n => decide (n = 0) || decide (400 ≤ n)

/-- The `res.on('end', ...)` status dispatch of `callApi` (index.ts lines
175-193), checked in source order: 429, then 402, then the generic `≥ 400 or
falsy status` branch, then JSON parsing with its own failure message.
`JSON.parse` is an external library routine and is taken as the `parse`
parameter, returning `none` exactly when it would throw. -/
def handleApiEnd (parse : String → Option ApiResponse) (statusCode : Option Nat)
    (data : String) : ApiOutcome :=
  if statusCode = some 429 then
    .rejected "Rate limit hit. Upgrade at refinebacklog.com/pricing or pass --key"
  else if statusCode = some 402 then
    .rejected "Too many items for free tier. Upgrade at refinebacklog.com/pricing"
  else if genericErrorStatus statusCode then
    .rejected ("API error " ++ statusShow statusCode ++ ": " ++ data)
  else
    match parse data with
    | some r => .resolved r
    | none => .rejected ("Invalid JSON response: " ++ jsSlice data 200)

/-- C3 (amended): the response mapping, in source order — status 429 gives
the rate-limit message; status 402 the payload message; a missing status, the
JS-falsy status 0, or any other status ≥ 400 the generic message embedding
the printed status and the raw body; on a nonzero status < 400 the body is
parsed, a parse failure rejecting with the format error that embeds at most
the first 200 characters of the raw body.  Each input maps to exactly one
outcome; there is no retry branch. -/
theorem api_response_mapping (parse : String → Option ApiResponse)
    (statusCode : Option Nat) (data : String) :
    (statusCode = some 429 →
      handleApiEnd parse statusCode data
        = .rejected "Rate limit hit. Upgrade at refinebacklog.com/pricing or pass --key")
    ∧ (statusCode = some 402 →
      handleApiEnd parse statusCode data
        = .rejected "Too many items for free tier. Upgrade at refinebacklog.com/pricing")
    ∧ (statusCode = none →
      handleApiEnd parse statusCode data
        = .rejected ("API error undefined: " ++ data))
    ∧ (∀ n, statusCode = some n → n ≠ 429 → n ≠ 402 → (n = 0 ∨ 400 ≤ n) →
      handleApiEnd parse statusCode data
        = .rejected ("API error " ++ toString n ++ ": " ++ data))
    ∧ (∀ n, statusCode = some n → n ≠ 0 → n < 400 → parse data = none →
      handleApiEnd parse statusCode data
        = .rejected ("Invalid JSON response: " ++ jsSlice data 200))
    ∧ (∀ n r, statusCode = some n → n ≠ 0 → n < 400 → parse data = some r →
      handleApiEnd parse statusCode data = .resolved r)
    ∧ (jsSlice data 200).length ≤ 200 := by
  refine ⟨?_, ?_, ?_, ?_, ?_, ?_, jsSlice_length_le data 200⟩
  · intro h; simp [handleApiEnd, h]
  · intro h; simp [handleApiEnd, h]
  · intro h; simp [handleApiEnd, h, genericErrorStatus, statusShow]
  · intro n h h429 h402 hge
    have hgen : genericErrorStatus (some n) = true := by
      simp [genericErrorStatus]; omega
    simp [handleApiEnd, h, h429, h402, hgen, statusShow]
  · intro n h h0 hlt hparse
    have hgen : genericErrorStatus (some n) = false := by
      simp [genericErrorStatus]; omega
    have h429 : n ≠ 429 := by omega
    have h402 : n ≠ 402 := by omega
    simp [handleApiEnd, h, h429, h402, hgen, hparse]
  · intro n r h h0 hlt hparse
    have hgen : genericErrorStatus (some n) = false := by
      simp [genericErrorStatus]; omega
    have h429 : n ≠ 429 := by omega
    have h402 : n ≠ 402 := by omega
    simp [handleApiEnd, h, h429, h402, hgen, hparse]

/-- Witness for C3's amended theorem: status 500 with body `"boom"` rejects
with the generic message. -/
theorem api_response_mapping_witness :
    handleApiEnd (fun _ => none) (some 500) "boom"
      = .rejected ("API error " ++ toString 500 ++ ": " ++ "boom") :=
  (api_response_mapping (fun _ => none) (some 500) "boom").2.2.2.1 500
    rfl (by decide) (by decide) (Or.inr (by decide))

/-- Counterexample to C3 as stated: status 0 is present and below 400, so the
claim requires the JSON-parse branch, but the code's `!res.statusCode` guard
is also true for the JS-falsy status 0, which therefore rejects with the
generic message instead of the response-format error. -/
theorem api_response_status_zero_counterexample :
    handleApiEnd (fun _ => none) (some 0) "x" = .rejected "API error 0: x"
    ∧ handleApiEnd (fun _ => none) (some 0) "x"
        ≠ .rejected ("Invalid JSON response: " ++ jsSlice "x" 200) :=
  ⟨by decide, by decide⟩

/-! ## Scoring-response normalization and the enforcement flow
(`runEnforce`, the speclint variant of this CLI, lines 359-388) -/

/-- One named check of the scoring response: a pass flag and an optional
message. -/
structure CheckVal where
  pass : Bool
  message : Option String
deriving DecidableEq

/-- One result object of the scoring endpoint; every field is optional
(`LintApiResponse`, part_000 lines 236-249). -/
structure IssueResult where
  lint_id : Option String
  completeness_score : Option Int
  agent_ready : Option Bool
  title : Option String
  checks : Option (List (String × CheckVal))
deriving DecidableEq

/-- The dual-shape scoring response: an optional `issues` list, plus the same
optional fields at the top level (the flat shape), grouped here as `flat`. -/
structure LintApiResponse where
  issues : Option (List IssueResult)
  flat : IssueResult
deriving DecidableEq

/-- `lintResult.issues?.[0] ?? lintResult` (part_000 line 360): the first
element of the issues list when that list is present and non-empty, otherwise
the flat object. -/
def pickIssueResult (resp : LintApiResponse) : IssueResult :=
  (resp.issues.bind List.head?).getD resp.flat

/-- The normalized enforcement inputs (part_000 lines 361-364): score
defaults to 0, ready flag to false, the identifier renders as `"#" + lint_id`
when truthy and `""` otherwise, checks default to the empty mapping. -/
structure NormResult where
  score : Int
  agentReady : Bool
  lintId : String
  checks : List (String × CheckVal)
deriving DecidableEq

/-- The normalization itself. -/
def normalizeLint (resp : LintApiResponse) : NormResult :=
  let issueResult := pickIssueResult resp
  { score := issueResult.completeness_score.getD 0
    agentReady := issueResult.agent_ready.getD false
    lintId :=
      match issueResult.lint_id with
      | some s => if s = "" then "" else "#" ++ s
      | none => ""
    checks := issueResult.checks.getD [] }

/-- One failing-check line `  ✗ ${key}${msg}` (part_000 lines 381-382), the
message part appearing only when the message is truthy. -/
def checkLine (kv : String × CheckVal) : String :=
  "  ✗ " ++ kv.1 ++
    (match kv.2.message with
     | some m => if m = "" then "" else " — " ++ m
     | none => "")

/-- The threshold comparison of `runEnforce` (part_000 lines 366-388),
modelled as the exit status plus the list of printed lines. -/
def enforceReport (issueNumber repo : String) (minScore : Int)
    (issueTitle : String) (nr : NormResult) : Nat × List String :=
  let idPart := if nr.lintId = "" then "" else " | " ++ nr.lintId
  if minScore ≤ nr.score then
    (0, ["✅ Lint passed" ++ idPart ++ " | Score: " ++ toString nr.score
           ++ "/100 | agent_ready: " ++ toString nr.agentReady,
         "Issue #" ++ issueNumber ++ ": \"" ++ issueTitle ++ "\"",
         "Proceeding with implementation."])
  else
    (1, ["❌ Lint failed" ++ idPart ++ " | Score: " ++ toString nr.score
           ++ "/100 | NOT agent_ready",
         "Issue #" ++ issueNumber ++ ": \"" ++ issueTitle ++ "\""]
        ++ (if nr.checks.filter (fun kv => kv.2.pass = false) = [] then []
            else "\nMissing:"
              :: (nr.checks.filter (fun kv => kv.2.pass = false)).map checkLine)
        ++ ["\nEdit the issue body and re-run: npx speclint enforce --issue "
              ++ issueNumber ++ " --repo " ++ repo])

/-- C5: normalization picks the first element of the issues list when that
list is present (and non-empty), falling back to the flat object when it is
absent; the score always comes out defined, defaulting to 0 when the field is
absent, the ready flag defaults to false, the identifier to the empty marker,
and the check mapping to the empty mapping. -/
theorem normalize_lint_defaults (resp : LintApiResponse) :
    (∀ hd tl, resp.issues = some (hd :: tl) → pickIssueResult resp = hd)
    ∧ (resp.issues = none → pickIssueResult resp = resp.flat)
    ∧ (normalizeLint resp).score = ((pickIssueResult resp).completeness_score).getD 0
    ∧ ((pickIssueResult resp).completeness_score = none →
        (normalizeLint resp).score = 0)
    ∧ (∀ v, (pickIssueResult resp).completeness_score = some v →
        (normalizeLint resp).score = v)
    ∧ (normalizeLint resp).agentReady = ((pickIssueResult resp).agent_ready).getD false
    ∧ ((pickIssueResult resp).agent_ready = none →
        (normalizeLint resp).agentReady = false)
    ∧ (normalizeLint resp).checks = ((pickIssueResult resp).checks).getD []
    ∧ ((pickIssueResult resp).checks = none → (normalizeLint resp).checks = [])
    ∧ ((pickIssueResult resp).lint_id = none → (normalizeLint resp).lintId = "")
    ∧ (∀ s, (pickIssueResult resp).lint_id = some s → s ≠ "" →
        (normalizeLint resp).lintId = "#" ++ s) := by
  refine ⟨?_, ?_, rfl, ?_, ?_, rfl, ?_, rfl, ?_, ?_, ?_⟩
  · intro hd tl h; simp [pickIssueResult, h]
  · intro h; simp [pickIssueResult, h]
  · intro h; simp [normalizeLint, h]
  · intro v h; simp [normalizeLint, h]
  · intro h; simp [normalizeLint, h]
  · intro h; simp [normalizeLint, h]
  · intro h; simp [normalizeLint, h]
  · intro s h hne; simp [normalizeLint, h, hne]

/-- A concrete list-shaped scoring response used by the C5 witness. -/
def c5Resp : LintApiResponse :=
  { issues := some [⟨some "L1", some 90, some true, some "t", some []⟩]
    flat := ⟨none, none, none, none, none⟩ }

/-- Witness for C5's theorem: on a list-shaped response the first element is
picked, and its score 90 comes through. -/
theorem normalize_lint_defaults_witness :
    pickIssueResult c5Resp = ⟨some "L1", some 90, some true, some "t", some []⟩
    ∧ (normalizeLint c5Resp).score = 90 :=
  ⟨(normalize_lint_defaults c5Resp).1 ⟨some "L1", some 90, some true, some "t", some []⟩
      [] rfl,
   (normalize_lint_defaults c5Resp).2.2.2.2.1 90 (by decide)⟩

/-- C2: with the returned score at or above the threshold (so also when they
are exactly equal) the enforcement flow prints the three-line success summary
and exits 0; strictly below the threshold it prints the failure summary and
issue line, then — exactly when some check has a false pass flag — a
`Missing:` header followed by one line per failing check (in order, with its
message when present), then the re-run guidance, and exits 1. -/
theorem enforce_threshold_behaviour (issueNumber repo : String) (minScore : Int)
    (issueTitle : String) (nr : NormResult) :
    (minScore ≤ nr.score →
      enforceReport issueNumber repo minScore issueTitle nr
        = (0, ["✅ Lint passed"
                 ++ (if nr.lintId = "" then "" else " | " ++ nr.lintId)
                 ++ " | Score: " ++ toString nr.score
                 ++ "/100 | agent_ready: " ++ toString nr.agentReady,
               "Issue #" ++ issueNumber ++ ": \"" ++ issueTitle ++ "\"",
               "Proceeding with implementation."]))
    ∧ (nr.score < minScore →
      enforceReport issueNumber repo minScore issueTitle nr
        = (1, ["❌ Lint failed"
                 ++ (if nr.lintId = "" then "" else " | " ++ nr.lintId)
                 ++ " | Score: " ++ toString nr.score
                 ++ "/100 | NOT agent_ready",
               "Issue #" ++ issueNumber ++ ": \"" ++ issueTitle ++ "\""]
              ++ (if nr.checks.filter (fun kv => kv.2.pass = false) = [] then []
                  else "\nMissing:"
                    :: (nr.checks.filter (fun kv => kv.2.pass = false)).map checkLine)
              ++ ["\nEdit the issue body and re-run: npx speclint enforce --issue "
                    ++ issueNumber ++ " --repo " ++ repo])) := by
  constructor
  · intro h
    rw [enforceReport]
    simp only [if_pos h]
  · intro h
    rw [enforceReport]
    rw [if_neg (by omega)]

/-- Witness for C2's theorem: a score of exactly 80 against the default
threshold 80 succeeds with exit code 0, and a score of 79 fails with exit
code 1, enumerating the single failing check. -/
theorem enforce_threshold_behaviour_witness :
    enforceReport "42" "acme/backend" 80 "T"
        ⟨80, true, "", []⟩
      = (0, ["✅ Lint passed | Score: 80/100 | agent_ready: true",
             "Issue #42: \"T\"",
             "Proceeding with implementation."])
    ∧ enforceReport "42" "acme/backend" 80 "T"
        ⟨79, false, "", [("has_steps", ⟨false, some "add steps"⟩)]⟩
      = (1, ["❌ Lint failed | Score: 79/100 | NOT agent_ready",
             "Issue #42: \"T\"",
             "\nMissing:",
             "  ✗ has_steps — add steps",
             "\nEdit the issue body and re-run: npx speclint enforce --issue 42 --repo acme/backend"]) :=
  ⟨by
    have h := (enforce_threshold_behaviour "42" "acme/backend" 80 "T"
      ⟨80, true, "", []⟩).1 (by decide)
    rw [h]; decide,
   by
    have h := (enforce_threshold_behaviour "42" "acme/backend" 80 "T"
      ⟨79, false, "", [("has_steps", ⟨false, some "add steps"⟩)]⟩).2 (by decide)
    rw [h]; decide⟩

/-! ### Prefix lemmas for the markdown-section theorems -/

lemma listStarts_of_append (p l1 l2 : List Char)
    (h : listStarts p (l1 ++ l2) = true) :
    listStarts (p.take l1.length) l1 = true := by
  induction l1 generalizing p with
  | nil => cases p <;> simp [listStarts]
  | cons b bs ih =>
    cases p with
    | nil => simp [listStarts]
    | cons a as =>
      rw [List.cons_append] at h
      simp only [listStarts, Bool.and_eq_true] at h
      rw [List.length_cons, List.take_succ_cons]
      simp only [listStarts, Bool.and_eq_true]
      exact ⟨h.1, ih as h.2⟩

/-- A string `q` that mismatches the literal `lit` within `lit`'s length is
not a prefix of `lit ++ s`, whatever `s` is. -/
lemma strStarts_append_false (q lit s : String)
    (h : listStarts (q.data.take lit.data.length) lit.data = false) :
    strStarts q (lit ++ s) = false := by
  rw [strStarts, String.data_append]
  cases hb : listStarts q.data (lit.data ++ s.data)
  · rfl
  · rw [listStarts_of_append q.data lit.data s.data hb] at h
    exact absurd h (by decide)

lemma mem_ite_nil {α : Type} {c : Prop} [Decidable c] {x : α} {L : List α}
    (h : x ∈ if c then ([] : List α) else L) : ¬ c ∧ x ∈ L := by
  by_cases hc : c
  · rw [if_pos hc] at h; exact absurd h (by simp)
  · rw [if_neg hc] at h; exact ⟨hc, h⟩

/-- Inventory of the lines `formatMarkdown` can emit for one item: the title
heading, the conditional user story quote, the problem line, the
estimate/priority line, the conditional rationale line, the conditional
acceptance-criteria header and bullets, and the conditional tags line. -/
lemma itemLines_mem_shape (item : RefinedItem) (l : String)
    (h : l ∈ itemLines item) :
    l = "## " ++ item.title
    ∨ (∃ s, item.userStory = some s ∧ s ≠ "" ∧ l = "\n> " ++ s)
    ∨ l = "\n**Problem:** " ++ item.problemStatement
    ∨ l = "\n**Estimate:** "
        ++ (item.estimate ++ (" | **Priority:** " ++ item.priority))
    ∨ (item.rationale ≠ "" ∧ l = "**Rationale:** " ++ item.rationale)
    ∨ (item.acceptanceCriteria ≠ [] ∧ l = "\n**Acceptance Criteria:**")
    ∨ (∃ ac, ac ∈ item.acceptanceCriteria ∧ l = "- " ++ ac)
    ∨ (item.tags ≠ [] ∧ l = "\n**Tags:** " ++ joinSep ", " item.tags) := by
  rw [itemLines] at h
  rcases List.mem_append.mp h with h | h
  rotate_left
  · rcases mem_ite_nil h with ⟨hne, hmem⟩
    exact Or.inr (Or.inr (Or.inr (Or.inr (Or.inr (Or.inr (Or.inr
      ⟨hne, List.mem_singleton.mp hmem⟩))))))
  rcases List.mem_append.mp h with h | h
  rotate_left
  · rcases mem_ite_nil h with ⟨hne, hmem⟩
    rcases List.mem_cons.mp hmem with hh | hh
    · exact Or.inr (Or.inr (Or.inr (Or.inr (Or.inr (Or.inl ⟨hne, hh⟩)))))
    · rcases List.mem_map.mp hh with ⟨ac, hac, hl⟩
      exact Or.inr (Or.inr (Or.inr (Or.inr (Or.inr (Or.inr (Or.inl
        ⟨ac, hac, hl.symm⟩))))))
  rcases List.mem_append.mp h with h | h
  rotate_left
  · rcases mem_ite_nil h with ⟨hne, hmem⟩
    exact Or.inr (Or.inr (Or.inr (Or.inr (Or.inl
      ⟨hne, List.mem_singleton.mp hmem⟩))))
  rcases List.mem_append.mp h with h | h
  rotate_left
  · exact Or.inr (Or.inr (Or.inr (Or.inl (List.mem_singleton.mp h))))
  rcases List.mem_append.mp h with h | h
  rotate_left
  · exact Or.inr (Or.inr (Or.inl (List.mem_singleton.mp h)))
  rcases List.mem_append.mp h with h | h
  · exact Or.inl (List.mem_singleton.mp h)
  · rcases hu : item.userStory with _ | s
    · rw [hu] at h; exact absurd h (by simp)
    · rw [hu] at h
      dsimp only at h
      by_cases hs : s = ""
      · rw [if_pos hs] at h; exact absurd h (by simp)
      · rw [if_neg hs] at h
        exact Or.inr (Or.inl ⟨s, rfl, hs, List.mem_singleton.mp h⟩)

/-- C6: the markdown formatter is a pure function — rendering the same item
list twice yields the identical string; when the user story is absent or
empty no rendered line starts with the block-quote marker, when the rationale
is empty none starts with the rationale label, when the acceptance-criteria
list is empty none starts with the acceptance-criteria header, and when the
tag list is empty none starts with the tags label (so no placeholder section
appears); consecutive items are joined with the horizontal-rule separator. -/
theorem format_markdown_sections (items : List RefinedItem) (item x y : RefinedItem)
    (rest : List RefinedItem) :
    formatMarkdown items = formatMarkdown items
    ∧ (item.userStory = none ∨ item.userStory = some "" →
        ∀ l ∈ itemLines item, strStarts "\n> " l = false)
    ∧ (item.rationale = "" →
        ∀ l ∈ itemLines item, strStarts "**Rationale:**" l = false)
    ∧ (item.acceptanceCriteria = [] →
        ∀ l ∈ itemLines item, strStarts "\n**Acceptance Criteria:**" l = false)
    ∧ (item.tags = [] →
        ∀ l ∈ itemLines item, strStarts "\n**Tags:**" l = false)
    ∧ formatMarkdown (x :: y :: rest)
        = formatItem x ++ "\n\n---\n\n" ++ formatMarkdown (y :: rest) := by
  refine ⟨rfl, ?_, ?_, ?_, ?_, rfl⟩
  · intro hus l hl
    rcases itemLines_mem_shape item l hl with
      h | ⟨s, hsome, hsne, h⟩ | h | h | ⟨_, h⟩ | ⟨_, h⟩ | ⟨ac, _, h⟩ | ⟨_, h⟩
    · exact h ▸ strStarts_append_false _ "## " _ (by decide)
    · rcases hus with h0 | h0 <;> rw [h0] at hsome
      · exact absurd hsome (by simp)
      · exact absurd (Option.some.inj hsome).symm hsne
    · exact h ▸ strStarts_append_false _ "\n**Problem:** " _ (by decide)
    · exact h ▸ strStarts_append_false _ "\n**Estimate:** " _ (by decide)
    · exact h ▸ strStarts_append_false _ "**Rationale:** " _ (by decide)
    · exact h ▸ (by decide)
    · exact h ▸ strStarts_append_false _ "- " _ (by decide)
    · exact h ▸ strStarts_append_false _ "\n**Tags:** " _ (by decide)
  · intro hrat l hl
    rcases itemLines_mem_shape item l hl with
      h | ⟨s, _, _, h⟩ | h | h | ⟨hne, h⟩ | ⟨_, h⟩ | ⟨ac, _, h⟩ | ⟨_, h⟩
    · exact h ▸ strStarts_append_false _ "## " _ (by decide)
    · exact h ▸ strStarts_append_false _ "\n> " _ (by decide)
    · exact h ▸ strStarts_append_false _ "\n**Problem:** " _ (by decide)
    · exact h ▸ strStarts_append_false _ "\n**Estimate:** " _ (by decide)
    · exact absurd hrat hne
    · exact h ▸ (by decide)
    · exact h ▸ strStarts_append_false _ "- " _ (by decide)
    · exact h ▸ strStarts_append_false _ "\n**Tags:** " _ (by decide)
  · intro hac l hl
    rcases itemLines_mem_shape item l hl with
      h | ⟨s, _, _, h⟩ | h | h | ⟨_, h⟩ | ⟨hne, h⟩ | ⟨ac, hmem, h⟩ | ⟨_, h⟩
    · exact h ▸ strStarts_append_false _ "## " _ (by decide)
    · exact h ▸ strStarts_append_false _ "\n> " _ (by decide)
    · exact h ▸ strStarts_append_false _ "\n**Problem:** " _ (by decide)
    · exact h ▸ strStarts_append_false _ "\n**Estimate:** " _ (by decide)
    · exact h ▸ strStarts_append_false _ "**Rationale:** " _ (by decide)
    · exact absurd hac hne
    · rw [hac] at hmem; exact absurd hmem (List.not_mem_nil ac)
    · exact h ▸ strStarts_append_false _ "\n**Tags:** " _ (by decide)
  · intro htag l hl
    rcases itemLines_mem_shape item l hl with
      h | ⟨s, _, _, h⟩ | h | h | ⟨_, h⟩ | ⟨_, h⟩ | ⟨ac, _, h⟩ | ⟨hne, h⟩
    · exact h ▸ strStarts_append_false _ "## " _ (by decide)
    · exact h ▸ strStarts_append_false _ "\n> " _ (by decide)
    · exact h ▸ strStarts_append_false _ "\n**Problem:** " _ (by decide)
    · exact h ▸ strStarts_append_false _ "\n**Estimate:** " _ (by decide)
    · exact h ▸ strStarts_append_false _ "**Rationale:** " _ (by decide)
    · exact h ▸ (by decide)
    · exact h ▸ strStarts_append_false _ "- " _ (by decide)
    · exact absurd htag hne

/-- Witness for C6's theorem: for an item with no user story, the title line
does not start with the block-quote marker. -/
theorem format_markdown_sections_witness : strStarts "\n> " ("## " ++ "T") = false :=
  (format_markdown_sections [] ⟨"T", "P", ["a"], "M", "HIGH", "", [], none⟩
      ⟨"T", "P", ["a"], "M", "HIGH", "", [], none⟩
      ⟨"T", "P", ["a"], "M", "HIGH", "", [], none⟩ []).2.1
    (Or.inl rfl) ("## " ++ "T") (by decide)

end RefineCli
